import Mathlib

/-!
Verification of the opendalr storage-access layer (src/rust/src/lib.rs).

The repository wraps an external storage engine (`opendal`) behind an
`OpenDALOperator` facade exposed to a host environment.  The facade's own
code — argument plumbing, the GCS builder-configuration logic in `new_gcs`,
and the result pass-through of every path operation — is embedded here
directly from the source.  The storage engine itself (the `BlockingOperator`
the facade holds) is an external dependency whose behaviour the spec
describes; it is modelled here from the spec as a flat object store:

  * a `Store` holds a finite association of paths to byte contents plus a
    set of explicitly created directory paths;
  * every backend call takes a `Fault` describing the backend's disposition
    for that one call (`Fault.none` = healthy backend; `Fault.permission`
    and `Fault.network` are the genuine backend failures of the spec);
  * paths are sequences of segments (`List String`), the shallow embedding
    of slash-separated path strings;
  * byte sequences are `List Nat` (each element a byte value).

Fallible calls return `Except ErrKind α`; state-mutating calls return the
successor `Store` explicitly (the shallow embedding of `&self` mutation
through the engine).
-/

namespace Opendalr

/-- A path, embedded as its list of slash-separated segments. -/
abbrev Path := List String

/-- An opaque byte sequence crossing the boundary. -/
abbrev Bytes := List Nat

/-- The normalized error taxonomy of the spec (§7). -/
inductive ErrKind where
  | ConfigurationError : ErrKind
  | NotFoundError : ErrKind
  | IsADirectoryError : ErrKind
  | NotADirectoryError : ErrKind
  | PermissionError : ErrKind
  | BackendError : String → ErrKind
deriving DecidableEq, Repr

/-- Modelled from the spec: the backend's disposition for one call.
`Fault.none` is a healthy backend; the other constructors are the
"genuine backend failures (network, permission)" of §4.3/§7. -/
inductive Fault where
  | none : Fault
  | permission : Fault
  | network : String → Fault
deriving DecidableEq, Repr

/-- Modelled from the spec: the state of the storage backend, a flat
object store.  `files` associates paths to contents; `dirs` records
explicitly created directory entries. -/
structure Store where
  files : List (Path × Bytes)
  dirs : List Path
deriving DecidableEq, Repr

/-- Look a path up among the stored files. -/
def lookupFile (p : Path) : List (Path × Bytes) → Option Bytes
  | [] => Option.none
  | (q, b) :: rest => if q = p then some b else lookupFile p rest

/-- Remove any file stored at `p`. -/
def eraseFile (p : Path) (fs : List (Path × Bytes)) : List (Path × Bytes) :=
  fs.filter (fun e => decide (e.1 ≠ p))

/-- Store `b` at `p`, overwriting any previous entry. -/
def insertFile (p : Path) (b : Bytes) (fs : List (Path × Bytes)) :
    List (Path × Bytes) :=
  (p, b) :: eraseFile p fs

/-- Boolean membership of a path in a list of directory paths. -/
def memPath (p : Path) (ds : List Path) : Bool :=
  ds.any (fun d => decide (d = p))

/-- `underPath p q` holds when `p` is a proper ancestor of `q`. -/
def underPath : Path → Path → Bool
  | [], [] => false
  | [], _ :: _ => true
  | _ :: _, [] => false
  | a :: p, b :: q => decide (a = b) && underPath p q

/-- `relChild p q = some n` exactly when `q` is the direct child of `p`
whose name relative to `p` is `n`. -/
def relChild : Path → Path → Option String
  | [], [n] => some n
  | a :: p, b :: q => if a = b then relChild p q else Option.none
  | _, _ => Option.none

/-- Whether a directory can be addressed at `p`: it was created
explicitly, or some entry lives strictly beneath it. -/
def dirAddr (st : Store) (p : Path) : Bool :=
  memPath p st.dirs || st.dirs.any (underPath p) ||
    st.files.any (fun e => underPath p e.1)

/-- The Metadata Record of the spec (§3), the value behind
`OpenDALMetadata` in the source. -/
structure OpenDALMetadata where
  is_file : Bool
  is_dir : Bool
  content_length : Nat
  cache_control : Option String := Option.none
  content_md5 : Option String := Option.none
  content_type : Option String := Option.none
  etag : Option String := Option.none
  content_disposition : Option String := Option.none
  version : Option String := Option.none
deriving DecidableEq, Repr

/-- Metadata of a stored file of content `b`. -/
def fileMeta (b : Bytes) : OpenDALMetadata :=
  { is_file := true, is_dir := false, content_length := b.length }

/-- Metadata of a directory entry. -/
def dirMeta : OpenDALMetadata :=
  { is_file := false, is_dir := true, content_length := 0 }

/-- A listing entry of the backend; the source extracts `entry.name()`. -/
structure Entry where
  name : String
deriving DecidableEq, Repr

namespace BlockingOperator

/-- Modelled from the spec: `stat` queries the backend and fails with
`NotFoundError` if the path does not exist, `PermissionError` if access
is denied, or a `BackendError` wrapping any other backend failure (§4.2). -/
def stat (st : Store) (f : Fault) (p : Path) : Except ErrKind OpenDALMetadata :=
  match f with
  | Fault.permission => .error ErrKind.PermissionError
  | Fault.network m => .error (ErrKind.BackendError m)
  | Fault.none =>
    match lookupFile p st.files with
    | some b => .ok (fileMeta b)
    | Option.none =>
      if memPath p st.dirs then .ok dirMeta
      else .error ErrKind.NotFoundError

/-- Modelled from the spec: the engine's existence check consults `stat`
and converts a `NotFoundError`-equivalent backend response into a normal
`false` result; every other failure is surfaced (§4.3, §7). -/
def existsOp (st : Store) (f : Fault) (p : Path) : Except ErrKind Bool :=
  match stat st f p with
  | .ok _ => .ok true
  | .error ErrKind.NotFoundError => .ok false
  | .error e => .error e

/-- Modelled from the spec: reads the full content of the entry; fails
with `NotFoundError` if absent, `IsADirectoryError` if `p` names a
directory (§4.3). -/
def read (st : Store) (f : Fault) (p : Path) : Except ErrKind Bytes :=
  match f with
  | Fault.permission => .error ErrKind.PermissionError
  | Fault.network m => .error (ErrKind.BackendError m)
  | Fault.none =>
    match lookupFile p st.files with
    | some b => .ok b
    | Option.none =>
      if memPath p st.dirs then .error ErrKind.IsADirectoryError
      else .error ErrKind.NotFoundError

/-- Modelled from the spec: creates or overwrites the entry at `p` with
the given byte sequence (§4.3).  Returns the successor store. -/
def write (st : Store) (f : Fault) (p : Path) (b : Bytes) :
    Except ErrKind Store :=
  match f with
  | Fault.permission => .error ErrKind.PermissionError
  | Fault.network m => .error (ErrKind.BackendError m)
  | Fault.none => .ok { st with files := insertFile p b st.files }

/-- Modelled from the spec: removes a single entry; succeeds (no-op) if
the entry does not already exist (§4.3, idempotent deletion). -/
def delete (st : Store) (f : Fault) (p : Path) : Except ErrKind Store :=
  match f with
  | Fault.permission => .error ErrKind.PermissionError
  | Fault.network m => .error (ErrKind.BackendError m)
  | Fault.none =>
    .ok { files := eraseFile p st.files,
          dirs := st.dirs.filter (fun d => decide (d ≠ p)) }

/-- Modelled from the spec: lists direct children of `p` (non-recursive),
with names relative to `p`; fails with `NotFoundError` if `p` does not
exist (§4.3). -/
def list (st : Store) (f : Fault) (p : Path) : Except ErrKind (List Entry) :=
  match f with
  | Fault.permission => .error ErrKind.PermissionError
  | Fault.network m => .error (ErrKind.BackendError m)
  | Fault.none =>
    if dirAddr st p then
      .ok ((st.dirs.filterMap fun d => (relChild p d).map Entry.mk) ++
           (st.files.filterMap fun e => (relChild p e.1).map Entry.mk))
    else .error ErrKind.NotFoundError

/-- Modelled from the spec: duplicates content from `src` to `dst`;
fails with `NotFoundError` if `src` absent (§4.3). -/
def copy (st : Store) (f : Fault) (src dst : Path) : Except ErrKind Store :=
  match f with
  | Fault.permission => .error ErrKind.PermissionError
  | Fault.network m => .error (ErrKind.BackendError m)
  | Fault.none =>
    match lookupFile src st.files with
    | some c => .ok { st with files := insertFile dst c st.files }
    | Option.none => .error ErrKind.NotFoundError

/-- Modelled from the spec: moves an entry; fails with `NotFoundError`
if the old path is absent; the destination is overwritten if it exists
(§4.3). -/
def rename (st : Store) (f : Fault) (old new : Path) : Except ErrKind Store :=
  match f with
  | Fault.permission => .error ErrKind.PermissionError
  | Fault.network m => .error (ErrKind.BackendError m)
  | Fault.none =>
    match lookupFile old st.files with
    | some c =>
      .ok { st with files := insertFile new c (eraseFile old st.files) }
    | Option.none => .error ErrKind.NotFoundError

end BlockingOperator

namespace OpenDALOperator

/-- `pub fn exists(&self, path: &str) -> Result<bool>`:
`Ok(self.op.exists(path)?)` — the facade forwards the engine's result
unchanged.  (Named `existsOp`: `exists` is reserved in Lean.) -/
def existsOp (st : Store) (f : Fault) (p : Path) : Except ErrKind Bool :=
  match BlockingOperator.existsOp st f p with
  | .ok b => .ok b
  | .error e => .error e

/-- `pub fn stat(&self, path: &str) -> Result<OpenDALMetadata>`: forwards
to the engine and wraps the metadata via `OpenDALMetadata::from`. -/
def stat (st : Store) (f : Fault) (p : Path) :
    Except ErrKind OpenDALMetadata :=
  match BlockingOperator.stat st f p with
  | .ok m => .ok m
  | .error e => .error e

/-- `pub fn list(&self, path: &str) -> Result<Vec<String>>`: forwards to
the engine and maps each entry to `entry.name().to_string()`. -/
def list (st : Store) (f : Fault) (p : Path) : Except ErrKind (List String) :=
  match BlockingOperator.list st f p with
  | .ok entries => .ok (entries.map (fun e => e.name))
  | .error e => .error e

/-- `pub fn read_raw(&self, path: &str) -> Result<Robj>`: forwards to the
engine and returns the bytes verbatim (`Raw::from_bytes(&content.to_vec())`). -/
def read_raw (st : Store) (f : Fault) (p : Path) : Except ErrKind Bytes :=
  match BlockingOperator.read st f p with
  | .ok content => .ok content
  | .error e => .error e

/-- `pub fn write(&self, path: &str, data: Vec<u8>) -> Result<()>`:
forwards to the engine and discards its metadata result
(`let _ = self.op.write(path, data)?`); the successor store stands for
the mutation of the held operator. -/
def write (st : Store) (f : Fault) (p : Path) (data : Bytes) :
    Except ErrKind Store :=
  match BlockingOperator.write st f p data with
  | .ok st' => .ok st'
  | .error e => .error e

/-- `pub fn delete(&self, path: &str) -> Result<()>`: forwards to the
engine. -/
def delete (st : Store) (f : Fault) (p : Path) : Except ErrKind Store :=
  match BlockingOperator.delete st f p with
  | .ok st' => .ok st'
  | .error e => .error e

/-- `pub fn copy(&self, source_path: &str, destination_path: &str) ->
Result<()>`: forwards to the engine. -/
def copy (st : Store) (f : Fault) (src dst : Path) : Except ErrKind Store :=
  match BlockingOperator.copy st f src dst with
  | .ok st' => .ok st'
  | .error e => .error e

/-- `pub fn rename(&self, old_path: &str, new_path: &str) -> Result<()>`:
forwards to the engine. -/
def rename (st : Store) (f : Fault) (old new : Path) : Except ErrKind Store :=
  match BlockingOperator.rename st f old new with
  | .ok st' => .ok st'
  | .error e => .error e

end OpenDALOperator

/-- The GCS builder configuration accumulated by `new_gcs` before the
operator is finished.  Each field mirrors one setter of the external
builder; a setter is a plain field update ("applied verbatim to the
backend configuration", §4.1). -/
structure GcsConfig where
  bucket : String := ""
  credential_path : Option String := Option.none
  credential : Option String := Option.none
  endpoint : Option String := Option.none
  default_storage_class : Option String := Option.none
  predefined_acl : Option String := Option.none
  root : Option String := Option.none
deriving DecidableEq, Repr

namespace Gcs

/-- `Gcs::default()`. -/
def default : GcsConfig := {}

/-- `builder.bucket(&bucket)`. -/
def bucket (c : GcsConfig) (v : String) : GcsConfig := { c with bucket := v }

/-- `builder.credential_path(&cp)`. -/
def credential_path (c : GcsConfig) (v : String) : GcsConfig :=
  { c with credential_path := some v }

/-- `builder.credential(&cc_json)`. -/
def credential (c : GcsConfig) (v : String) : GcsConfig :=
  { c with credential := some v }

/-- `builder.endpoint(&ep)`. -/
def endpoint (c : GcsConfig) (v : String) : GcsConfig :=
  { c with endpoint := some v }

/-- `builder.default_storage_class(&dsc)`. -/
def default_storage_class (c : GcsConfig) (v : String) : GcsConfig :=
  { c with default_storage_class := some v }

/-- `builder.predefined_acl(&acl)`. -/
def predefined_acl (c : GcsConfig) (v : String) : GcsConfig :=
  { c with predefined_acl := some v }

/-- `builder.root(&r)`. -/
def root (c : GcsConfig) (v : String) : GcsConfig := { c with root := some v }

end Gcs

/-- The builder configuration assembled by `OpenDALOperator::new_gcs`
(src/rust/src/lib.rs lines 157–193): `Gcs::default().bucket(&bucket)`,
then `credential_path` if supplied, else `credential` if the JSON content
is supplied; then each remaining optional setter exactly when its
argument is supplied. -/
def new_gcs_config (bucket : String)
    (credential_path credential_json_content endpoint
      default_storage_class predefined_acl root : Option String) :
    GcsConfig :=
  let builder := Gcs.bucket Gcs.default bucket
  let builder :=
    match credential_path with
    | some cp => Gcs.credential_path builder cp
    | Option.none =>
      match credential_json_content with
      | some cc_json => Gcs.credential builder cc_json
      | Option.none => builder
  let builder :=
    match endpoint with
    | some ep => Gcs.endpoint builder ep
    | Option.none => builder
  let builder :=
    match default_storage_class with
    | some dsc => Gcs.default_storage_class builder dsc
    | Option.none => builder
  let builder :=
    match predefined_acl with
    | some acl => Gcs.predefined_acl builder acl
    | Option.none => builder
  let builder :=
    match root with
    | some r => Gcs.root builder r
    | Option.none => builder
  builder

/-- Modelled from the spec: `Operator::new(builder)?.finish()` — the
construction step of the external engine, which must fail with a
`ConfigurationError` if `bucket` is empty or if supplied credential
material is malformed (§4.1); otherwise the fully configured operator is
returned.  `malformed` stands for the engine's credential validity check. -/
def gcsBuild (malformed : String → Bool) (c : GcsConfig) :
    Except ErrKind GcsConfig :=
  if c.bucket = "" then .error ErrKind.ConfigurationError
  else
    match c.credential_path with
    | some cp =>
      if malformed cp then .error ErrKind.ConfigurationError else .ok c
    | Option.none =>
      match c.credential with
      | some cc =>
        if malformed cc then .error ErrKind.ConfigurationError else .ok c
      | Option.none => .ok c

/-- `pub fn new_gcs(...) -> Result<Self>`: assemble the builder
configuration, then construct the operator from it. -/
def new_gcs (malformed : String → Bool) (bucket : String)
    (credential_path credential_json_content endpoint
      default_storage_class predefined_acl root : Option String) :
    Except ErrKind GcsConfig :=
  gcsBuild malformed
    (new_gcs_config bucket credential_path credential_json_content endpoint
      default_storage_class predefined_acl root)

/-- An empty store, for concrete evaluations. -/
def storeEmpty : Store := { files := [], dirs := [] }

/-- A store holding one file `x` with content `hi`, for concrete
evaluations. -/
def storeX : Store := { files := [(["x"], [104, 105])], dirs := [] }

/-- A store holding one empty directory `d`, for concrete evaluations. -/
def storeD : Store := { files := [], dirs := [["d"]] }

/-! ### Store lemmas -/

theorem lookupFile_insert_self (p : Path) (b : Bytes)
    (fs : List (Path × Bytes)) :
    lookupFile p (insertFile p b fs) = some b := by
  simp [insertFile, lookupFile]

theorem lookupFile_erase_self (p : Path) (fs : List (Path × Bytes)) :
    lookupFile p (eraseFile p fs) = Option.none := by
  induction fs with
  | nil => rfl
  | cons e rest ih =>
    obtain ⟨q, b⟩ := e
    by_cases h : q = p
    · simpa [eraseFile, List.filter_cons, h] using ih
    · simpa [eraseFile, List.filter_cons, h, lookupFile] using ih

theorem lookupFile_erase_ne (p q : Path) (fs : List (Path × Bytes))
    (h : q ≠ p) :
    lookupFile q (eraseFile p fs) = lookupFile q fs := by
  induction fs with
  | nil => rfl
  | cons e rest ih =>
    obtain ⟨r, b⟩ := e
    by_cases hr : r = p
    · have hrq : ¬ r = q := fun hq => h (hq ▸ hr)
      rw [show eraseFile p ((r, b) :: rest) = eraseFile p rest from by
        simp [eraseFile, List.filter_cons, hr]]
      rw [ih]
      simp [lookupFile, hrq]
    · rw [show eraseFile p ((r, b) :: rest) = (r, b) :: eraseFile p rest from by
        simp [eraseFile, List.filter_cons, hr]]
      by_cases hrq : r = q
      · simp [lookupFile, hrq]
      · simp [lookupFile, hrq, ih]

theorem lookupFile_insert_ne (p q : Path) (b : Bytes)
    (fs : List (Path × Bytes)) (h : q ≠ p) :
    lookupFile q (insertFile p b fs) = lookupFile q fs := by
  have hp : p ≠ q := fun hpq => h hpq.symm
  simp [insertFile, lookupFile, hp, lookupFile_erase_ne p q fs h]

theorem eraseFile_of_lookup_none (p : Path) (fs : List (Path × Bytes))
    (h : lookupFile p fs = Option.none) : eraseFile p fs = fs := by
  induction fs with
  | nil => rfl
  | cons e rest ih =>
    obtain ⟨q, b⟩ := e
    by_cases hq : q = p
    · simp [lookupFile, hq] at h
    · simp only [lookupFile, if_neg hq] at h
      calc eraseFile p ((q, b) :: rest) = (q, b) :: eraseFile p rest := by
            simp [eraseFile, List.filter_cons, hq]
        _ = (q, b) :: rest := by rw [ih h]

theorem memPath_filter_ne_self (p : Path) (ds : List Path) :
    memPath p (ds.filter (fun d => decide (d ≠ p))) = false := by
  induction ds with
  | nil => rfl
  | cons d rest ih =>
    by_cases h : d = p
    · rw [List.filter_cons, if_neg (by simp [h])]
      exact ih
    · rw [List.filter_cons, if_pos (by simpa using h)]
      simp [memPath, h, ih]

theorem dirs_filter_of_not_mem (p : Path) (ds : List Path)
    (h : memPath p ds = false) :
    ds.filter (fun d => decide (d ≠ p)) = ds := by
  induction ds with
  | nil => rfl
  | cons d rest ih =>
    have hd : ¬ d = p := by
      intro hdp
      simp [memPath, hdp] at h
    have hrest : memPath p rest = false := by
      simp only [memPath, List.any_cons, Bool.or_eq_false_iff] at h
      simpa [memPath] using h.2
    rw [List.filter_cons, if_pos (by simpa using hd), ih hrest]

theorem relChild_eq_some_iff (p : Path) (n : String) :
    ∀ q : Path, relChild p q = some n ↔ q = p ++ [n] := by
  induction p with
  | nil =>
    intro q
    match q with
    | [] => simp [relChild]
    | [b] => simp [relChild]
    | b :: c :: q' => simp [relChild]
  | cons a p' ih =>
    intro q
    match q with
    | [] => simp [relChild]
    | b :: q' =>
      by_cases h : a = b
      · simp [relChild, h, ih q']
      · constructor
        · intro hm
          rw [show relChild (a :: p') (b :: q') = Option.none from by
            simp [relChild, h]] at hm
          cases hm
        · intro he
          have hba : b = a ∧ q' = p' ++ [n] := by simpa using he
          exact absurd hba.1.symm h

/-! ### Facade pass-through lemmas

`Ok(self.op.f(...)?)` forwards the engine's result unchanged. -/

theorem OpenDALOperator.existsOp_eq (st : Store) (f : Fault) (p : Path) :
    OpenDALOperator.existsOp st f p = BlockingOperator.existsOp st f p := by
  unfold OpenDALOperator.existsOp
  cases BlockingOperator.existsOp st f p <;> rfl

theorem OpenDALOperator.stat_eq (st : Store) (f : Fault) (p : Path) :
    OpenDALOperator.stat st f p = BlockingOperator.stat st f p := by
  unfold OpenDALOperator.stat
  cases BlockingOperator.stat st f p <;> rfl

theorem OpenDALOperator.read_raw_eq (st : Store) (f : Fault) (p : Path) :
    OpenDALOperator.read_raw st f p = BlockingOperator.read st f p := by
  unfold OpenDALOperator.read_raw
  cases BlockingOperator.read st f p <;> rfl

theorem OpenDALOperator.write_eq (st : Store) (f : Fault) (p : Path)
    (b : Bytes) :
    OpenDALOperator.write st f p b = BlockingOperator.write st f p b := by
  unfold OpenDALOperator.write
  cases BlockingOperator.write st f p b <;> rfl

theorem OpenDALOperator.delete_eq (st : Store) (f : Fault) (p : Path) :
    OpenDALOperator.delete st f p = BlockingOperator.delete st f p := by
  unfold OpenDALOperator.delete
  cases BlockingOperator.delete st f p <;> rfl

theorem OpenDALOperator.copy_eq (st : Store) (f : Fault) (a b : Path) :
    OpenDALOperator.copy st f a b = BlockingOperator.copy st f a b := by
  unfold OpenDALOperator.copy
  cases BlockingOperator.copy st f a b <;> rfl

theorem OpenDALOperator.rename_eq (st : Store) (f : Fault) (a b : Path) :
    OpenDALOperator.rename st f a b = BlockingOperator.rename st f a b := by
  unfold OpenDALOperator.rename
  cases BlockingOperator.rename st f a b <;> rfl

/-- With a healthy backend the existence check always returns a boolean:
`true` exactly when a file or directory entry is stored at `p`. -/
theorem existsOp_none_ok (st : Store) (p : Path) :
    BlockingOperator.existsOp st Fault.none p =
      .ok ((lookupFile p st.files).isSome || memPath p st.dirs) := by
  unfold BlockingOperator.existsOp BlockingOperator.stat
  cases hlf : lookupFile p st.files with
  | none => by_cases hd : memPath p st.dirs = true <;> simp [hlf, hd]
  | some b => simp [hlf]

/-! ### Claims -/

/-- C1: for every path `p`, `exists(p)` returns `false` when the backend
reports that `p` does not exist and never returns an error for that
condition; `exists(p)` returns an error only for genuine backend failures
(permission denial or a network failure). -/
theorem C1_exists_not_found_is_false (st : Store) (f : Fault) (p : Path)
    (hf : lookupFile p st.files = Option.none)
    (hd : memPath p st.dirs = false) :
    OpenDALOperator.existsOp st Fault.none p = .ok false ∧
    OpenDALOperator.existsOp st f p ≠ .error ErrKind.NotFoundError ∧
    (∀ e, OpenDALOperator.existsOp st f p = .error e →
      f ≠ Fault.none ∧
        (e = ErrKind.PermissionError ∨ ∃ m, e = ErrKind.BackendError m)) := by
  refine ⟨?_, ?_, ?_⟩
  · rw [OpenDALOperator.existsOp_eq, existsOp_none_ok]
    simp [hf, hd]
  · rw [OpenDALOperator.existsOp_eq]
    cases f with
    | none =>
      rw [existsOp_none_ok]
      simp
    | permission =>
      simp [BlockingOperator.existsOp, BlockingOperator.stat]
    | network m =>
      simp [BlockingOperator.existsOp, BlockingOperator.stat]
  · intro e he
    rw [OpenDALOperator.existsOp_eq] at he
    cases f with
    | none =>
      rw [existsOp_none_ok] at he
      cases he
    | permission =>
      simp [BlockingOperator.existsOp, BlockingOperator.stat] at he
      exact ⟨by decide, Or.inl he.symm⟩
    | network m =>
      simp [BlockingOperator.existsOp, BlockingOperator.stat] at he
      exact ⟨fun hc => Fault.noConfusion hc, Or.inr ⟨m, he.symm⟩⟩

/-- Witness for C1 at the empty store and path `x`, with the error case
exercised by a permission fault. -/
theorem C1_exists_witness :
    OpenDALOperator.existsOp storeEmpty Fault.none ["x"] = .ok false ∧
    OpenDALOperator.existsOp storeEmpty Fault.permission ["x"] ≠
      .error ErrKind.NotFoundError ∧
    (∀ e, OpenDALOperator.existsOp storeEmpty Fault.permission ["x"] =
        .error e →
      Fault.permission ≠ Fault.none ∧
        (e = ErrKind.PermissionError ∨ ∃ m, e = ErrKind.BackendError m)) :=
  C1_exists_not_found_is_false storeEmpty Fault.permission ["x"] rfl rfl

/-- C3: for every path `p` and byte sequence `b`, if `write(p, b)`
succeeds then an immediately following `read_raw(p)` succeeds and returns
exactly `b`. -/
theorem C3_write_read_roundtrip (st st' : Store) (f : Fault) (p : Path)
    (b : Bytes)
    (h : OpenDALOperator.write st f p b = .ok st') :
    OpenDALOperator.read_raw st' Fault.none p = .ok b := by
  rw [OpenDALOperator.write_eq] at h
  cases f with
  | permission => simp [BlockingOperator.write] at h
  | network m => simp [BlockingOperator.write] at h
  | none =>
    simp only [BlockingOperator.write] at h
    have hst : st' = { st with files := insertFile p b st.files } := by
      injection h with h'
      exact h'.symm
    subst hst
    rw [OpenDALOperator.read_raw_eq]
    simp [BlockingOperator.read, lookupFile_insert_self]

/-- Witness for C3: write then read of the empty and of a non-empty byte
sequence at the empty store. -/
theorem C3_write_read_witness :
    OpenDALOperator.write storeEmpty Fault.none ["x"] [1, 2] =
      .ok { files := [(["x"], [1, 2])], dirs := [] } ∧
    OpenDALOperator.read_raw { files := [(["x"], [1, 2])], dirs := [] }
      Fault.none ["x"] = .ok [1, 2] ∧
    OpenDALOperator.write storeEmpty Fault.none ["y"] [] =
      .ok { files := [(["y"], [])], dirs := [] } ∧
    OpenDALOperator.read_raw { files := [(["y"], [])], dirs := [] }
      Fault.none ["y"] = .ok [] :=
  ⟨rfl,
   C3_write_read_roundtrip storeEmpty _ Fault.none ["x"] [1, 2] rfl,
   rfl,
   C3_write_read_roundtrip storeEmpty _ Fault.none ["y"] [] rfl⟩

/-- C4: `stat(p)` fails with `NotFoundError` when `p` does not exist, with
`PermissionError` when access is denied, and with a `BackendError` wrapping
the backend's diagnostic for any other backend failure; every failure is
one of the taxonomy's typed kinds (never the construction-only
`ConfigurationError`, nor an untyped value). -/
theorem C4_stat_error_taxonomy (st : Store) (f : Fault) (p : Path)
    (m : String)
    (hf : lookupFile p st.files = Option.none)
    (hd : memPath p st.dirs = false) :
    OpenDALOperator.stat st Fault.none p = .error ErrKind.NotFoundError ∧
    OpenDALOperator.stat st Fault.permission p =
      .error ErrKind.PermissionError ∧
    OpenDALOperator.stat st (Fault.network m) p =
      .error (ErrKind.BackendError m) ∧
    (∀ e, OpenDALOperator.stat st f p = .error e →
      e = ErrKind.NotFoundError ∨ e = ErrKind.PermissionError ∨
        ∃ d, e = ErrKind.BackendError d) := by
  refine ⟨?_, ?_, ?_, ?_⟩
  · rw [OpenDALOperator.stat_eq]
    simp [BlockingOperator.stat, hf, hd]
  · rw [OpenDALOperator.stat_eq]
    simp [BlockingOperator.stat]
  · rw [OpenDALOperator.stat_eq]
    simp [BlockingOperator.stat]
  · intro e he
    rw [OpenDALOperator.stat_eq] at he
    cases f with
    | none =>
      cases hlf : lookupFile p st.files with
      | some b => simp [BlockingOperator.stat, hlf] at he
      | none =>
        by_cases hdm : memPath p st.dirs = true
        · simp [BlockingOperator.stat, hlf, hdm] at he
        · simp [BlockingOperator.stat, hlf, hdm] at he
          exact Or.inl he.symm
    | permission =>
      simp [BlockingOperator.stat] at he
      exact Or.inr (Or.inl he.symm)
    | network d =>
      simp [BlockingOperator.stat] at he
      exact Or.inr (Or.inr ⟨d, he.symm⟩)

/-- Witness for C4 at the empty store, with the catch-all case exercised
by a network fault carrying the diagnostic `boom`. -/
theorem C4_stat_witness :
    OpenDALOperator.stat storeEmpty Fault.none ["x"] =
      .error ErrKind.NotFoundError ∧
    OpenDALOperator.stat storeEmpty Fault.permission ["x"] =
      .error ErrKind.PermissionError ∧
    OpenDALOperator.stat storeEmpty (Fault.network "boom") ["x"] =
      .error (ErrKind.BackendError "boom") ∧
    (∀ e, OpenDALOperator.stat storeEmpty (Fault.network "boom") ["x"] =
        .error e →
      e = ErrKind.NotFoundError ∨ e = ErrKind.PermissionError ∨
        ∃ d, e = ErrKind.BackendError d) :=
  C4_stat_error_taxonomy storeEmpty (Fault.network "boom") ["x"] "boom"
    rfl rfl

/-- C5: `delete(p)` succeeds as a no-op when no entry exists at `p`, and
after any successful `delete(p)` an immediately repeated `delete(p)` also
succeeds. -/
theorem C5_delete_idempotent (st : Store) (p : Path)
    (hf : lookupFile p st.files = Option.none)
    (hd : memPath p st.dirs = false) :
    OpenDALOperator.delete st Fault.none p = .ok st ∧
    (∀ st1 st' : Store,
      OpenDALOperator.delete st1 Fault.none p = .ok st' →
      OpenDALOperator.delete st' Fault.none p = .ok st') := by
  constructor
  · rw [OpenDALOperator.delete_eq]
    simp only [BlockingOperator.delete]
    rw [eraseFile_of_lookup_none p st.files hf,
      dirs_filter_of_not_mem p st.dirs hd]
  · intro st1 st' h
    rw [OpenDALOperator.delete_eq] at h ⊢
    simp only [BlockingOperator.delete] at h
    have hst : st' =
        ⟨eraseFile p st1.files,
          st1.dirs.filter (fun d => decide (d ≠ p))⟩ := by
      injection h with h'
      exact h'.symm
    subst hst
    simp only [BlockingOperator.delete]
    rw [eraseFile_of_lookup_none p _ (lookupFile_erase_self p st1.files),
      dirs_filter_of_not_mem p _ (memPath_filter_ne_self p st1.dirs)]

/-- Witness for C5: deleting the absent path `x` from the empty store is a
no-op, and the double-delete clause holds there. -/
theorem C5_delete_witness :
    OpenDALOperator.delete storeEmpty Fault.none ["x"] = .ok storeEmpty ∧
    (∀ st1 st' : Store,
      OpenDALOperator.delete st1 Fault.none ["x"] = .ok st' →
      OpenDALOperator.delete st' Fault.none ["x"] = .ok st') :=
  C5_delete_idempotent storeEmpty ["x"] rfl rfl

/-- C6: `list(p)` returns the sequence of names of the direct
(non-recursive) children of `p`, each name relative to `p` rather than a
full path; it returns the empty sequence when the directory at `p` exists
and is empty, and fails with `NotFoundError` when `p` does not exist (no
directory is addressable at `p`). -/
theorem C6_list_direct_children (st : Store) (p : Path) :
    (dirAddr st p = true →
      (∀ d ∈ st.dirs, relChild p d = Option.none) →
      (∀ e ∈ st.files, relChild p e.1 = Option.none) →
      OpenDALOperator.list st Fault.none p = .ok []) ∧
    (dirAddr st p = false →
      OpenDALOperator.list st Fault.none p =
        .error ErrKind.NotFoundError) ∧
    (∀ ns, OpenDALOperator.list st Fault.none p = .ok ns →
      ∀ n, n ∈ ns ↔
        ((p ++ [n]) ∈ st.dirs ∨ ∃ b, (p ++ [n], b) ∈ st.files)) := by
  refine ⟨?_, ?_, ?_⟩
  · intro hda hd hf
    have hb : BlockingOperator.list st Fault.none p = .ok [] := by
      simp only [BlockingOperator.list, hda, if_true]
      rw [List.filterMap_eq_nil_iff.2 (fun d hdm => by simp [hd d hdm]),
        List.filterMap_eq_nil_iff.2 (fun e hem => by simp [hf e hem])]
      rfl
    unfold OpenDALOperator.list
    rw [hb]
    rfl
  · intro hda
    have hb : BlockingOperator.list st Fault.none p =
        .error ErrKind.NotFoundError := by
      simp [BlockingOperator.list, hda]
    unfold OpenDALOperator.list
    rw [hb]
  · intro ns hn n
    unfold OpenDALOperator.list at hn
    by_cases hda : dirAddr st p = true
    · have hb : BlockingOperator.list st Fault.none p =
          .ok ((st.dirs.filterMap fun d => (relChild p d).map Entry.mk) ++
            (st.files.filterMap fun e => (relChild p e.1).map Entry.mk)) := by
        simp [BlockingOperator.list, hda]
      rw [hb] at hn
      have hns : ns =
          (((st.dirs.filterMap fun d => (relChild p d).map Entry.mk) ++
            (st.files.filterMap fun e => (relChild p e.1).map Entry.mk)).map
              (fun e => e.name)) := by
        injection hn with h'
        exact h'.symm
      subst hns
      simp only [List.mem_map, List.mem_append, List.mem_filterMap,
        Option.map_eq_some', relChild_eq_some_iff]
      constructor
      · rintro ⟨en, hen, hname⟩
        rcases hen with ⟨d, hdm, s, hds, hmk⟩ | ⟨e, hem, s, hes, hmk⟩
        · subst hds
          exact Or.inl (by
            have hs : s = n := by rw [← hmk] at hname; exact hname
            exact hs ▸ hdm)
        · refine Or.inr ⟨e.2, ?_⟩
          have hs : s = n := by rw [← hmk] at hname; exact hname
          have he1 : e.1 = p ++ [n] := hs ▸ hes
          have : e = (p ++ [n], e.2) := by
            rw [← he1]
          exact this ▸ hem
      · rintro (hdm | ⟨b, hbm⟩)
        · exact ⟨Entry.mk n, Or.inl ⟨p ++ [n], hdm, n, rfl, rfl⟩, rfl⟩
        · exact ⟨Entry.mk n, Or.inr ⟨(p ++ [n], b), hbm, n, rfl, rfl⟩, rfl⟩
    · have hb : BlockingOperator.list st Fault.none p =
          .error ErrKind.NotFoundError := by
        simp [BlockingOperator.list, hda]
      rw [hb] at hn
      cases hn

/-- Witness for C6: listing the empty directory `d` of `storeD` yields
`[]`; the membership clause is exercised on that empty result. -/
theorem C6_list_witness :
    OpenDALOperator.list storeD Fault.none [] = .ok ["d"] ∧
    OpenDALOperator.list storeD Fault.none ["d"] = .ok [] ∧
    OpenDALOperator.list storeD Fault.none ["nope"] =
      .error ErrKind.NotFoundError ∧
    (∀ n, n ∈ (["d"] : List String) ↔
      (([] ++ [n] : Path) ∈ storeD.dirs ∨
        ∃ b, (([] ++ [n] : Path), b) ∈ storeD.files)) :=
  ⟨rfl,
   (C6_list_direct_children storeD ["d"]).1 rfl
     (by intro d hdm; fin_cases hdm; rfl)
     (by intro e hem; cases hem),
   (C6_list_direct_children storeD ["nope"]).2.1 rfl,
   (C6_list_direct_children storeD []).2.2 ["d"] rfl⟩

/-- C7 counterexample: with the file `x` present, `rename(x, x)` succeeds
(the source is found, removed, and re-inserted at the same destination),
yet `exists(x)` afterwards returns `true`, not `false` as the claim
demands for every pair of paths. -/
theorem C7_rename_counterexample :
    OpenDALOperator.rename storeX Fault.none ["x"] ["x"] = .ok storeX ∧
    OpenDALOperator.existsOp storeX Fault.none ["x"] = .ok true :=
  ⟨rfl, rfl⟩

/-- C7 amended: for every pair of distinct paths `a ≠ b` where a file
entry (and no directory entry) lives at `a` with content `c`, if
`rename(a, b)` succeeds then afterwards `exists(a)` returns `false` and
`read_raw(b)` returns `c` (an existing destination is overwritten);
`rename(a, b)` fails with `NotFoundError` when no entry exists at `a`. -/
theorem C7_rename_moves (st st' : Store) (f : Fault) (a b : Path)
    (c : Bytes)
    (hab : a ≠ b) (hc : lookupFile a st.files = some c)
    (hdir : memPath a st.dirs = false)
    (h : OpenDALOperator.rename st f a b = .ok st') :
    OpenDALOperator.existsOp st' Fault.none a = .ok false ∧
    OpenDALOperator.read_raw st' Fault.none b = .ok c ∧
    (∀ st2 : Store, lookupFile a st2.files = Option.none →
      OpenDALOperator.rename st2 Fault.none a b =
        .error ErrKind.NotFoundError) := by
  rw [OpenDALOperator.rename_eq] at h
  cases f with
  | permission => simp [BlockingOperator.rename] at h
  | network m => simp [BlockingOperator.rename] at h
  | none =>
    simp only [BlockingOperator.rename, hc] at h
    have hst : st' = { st with files := insertFile b c (eraseFile a st.files) } := by
      injection h with h'
      exact h'.symm
    subst hst
    refine ⟨?_, ?_, ?_⟩
    · rw [OpenDALOperator.existsOp_eq, existsOp_none_ok]
      have h1 : lookupFile a (insertFile b c (eraseFile a st.files)) =
          Option.none := by
        rw [lookupFile_insert_ne b a c _ hab, lookupFile_erase_self]
      simp [h1, hdir]
    · rw [OpenDALOperator.read_raw_eq]
      simp [BlockingOperator.read, lookupFile_insert_self]
    · intro st2 h2
      rw [OpenDALOperator.rename_eq]
      simp [BlockingOperator.rename, h2]

/-- Witness for C7 amended: renaming `x` to `y` in `storeX`. -/
theorem C7_rename_witness :
    OpenDALOperator.existsOp ⟨[(["y"], [104, 105])], []⟩ Fault.none ["x"] =
      .ok false ∧
    OpenDALOperator.read_raw ⟨[(["y"], [104, 105])], []⟩ Fault.none ["y"] =
      .ok [104, 105] ∧
    (∀ st2 : Store, lookupFile ["x"] st2.files = Option.none →
      OpenDALOperator.rename st2 Fault.none ["x"] ["y"] =
        .error ErrKind.NotFoundError) :=
  C7_rename_moves storeX ⟨[(["y"], [104, 105])], []⟩ Fault.none ["x"] ["y"]
    [104, 105] (by decide) rfl rfl rfl

/-- C8: for every pair of paths `a`, `b` with a file entry of content `c`
at `a`, a successful `copy(a, b)` leaves `read_raw(b)` equal to
`read_raw(a)` (both `c`), and `a` unchanged and still readable;
`copy(a, b)` fails with `NotFoundError` when no entry exists at `a`. -/
theorem C8_copy_preserves_source (st st' : Store) (f : Fault) (a b : Path)
    (c : Bytes)
    (hc : lookupFile a st.files = some c)
    (h : OpenDALOperator.copy st f a b = .ok st') :
    OpenDALOperator.read_raw st' Fault.none b = .ok c ∧
    OpenDALOperator.read_raw st' Fault.none a = .ok c ∧
    OpenDALOperator.read_raw st Fault.none a = .ok c ∧
    (∀ st2 : Store, lookupFile a st2.files = Option.none →
      OpenDALOperator.copy st2 Fault.none a b =
        .error ErrKind.NotFoundError) := by
  rw [OpenDALOperator.copy_eq] at h
  cases f with
  | permission => simp [BlockingOperator.copy] at h
  | network m => simp [BlockingOperator.copy] at h
  | none =>
    simp only [BlockingOperator.copy, hc] at h
    have hst : st' = { st with files := insertFile b c st.files } := by
      injection h with h'
      exact h'.symm
    subst hst
    refine ⟨?_, ?_, ?_, ?_⟩
    · rw [OpenDALOperator.read_raw_eq]
      simp [BlockingOperator.read, lookupFile_insert_self]
    · rw [OpenDALOperator.read_raw_eq]
      by_cases hab : a = b
      · subst hab
        simp [BlockingOperator.read, lookupFile_insert_self]
      · have h1 : lookupFile a (insertFile b c st.files) = some c := by
          rw [lookupFile_insert_ne b a c _ hab, hc]
        simp [BlockingOperator.read, h1]
    · rw [OpenDALOperator.read_raw_eq]
      simp [BlockingOperator.read, hc]
    · intro st2 h2
      rw [OpenDALOperator.copy_eq]
      simp [BlockingOperator.copy, h2]

/-- Witness for C8: copying `x` to `y` in `storeX`. -/
theorem C8_copy_witness :
    OpenDALOperator.read_raw ⟨[(["y"], [104, 105]), (["x"], [104, 105])], []⟩
      Fault.none ["y"] = .ok [104, 105] ∧
    OpenDALOperator.read_raw ⟨[(["y"], [104, 105]), (["x"], [104, 105])], []⟩
      Fault.none ["x"] = .ok [104, 105] ∧
    OpenDALOperator.read_raw storeX Fault.none ["x"] = .ok [104, 105] ∧
    (∀ st2 : Store, lookupFile ["x"] st2.files = Option.none →
      OpenDALOperator.copy st2 Fault.none ["x"] ["y"] =
        .error ErrKind.NotFoundError) :=
  C8_copy_preserves_source storeX
    ⟨[(["y"], [104, 105]), (["x"], [104, 105])], []⟩ Fault.none ["x"] ["y"]
    [104, 105] rfl rfl

/-! ### GCS builder-configuration lemmas -/

theorem new_gcs_config_bucket (bucket : String)
    (cp cc ep dsc acl root : Option String) :
    (new_gcs_config bucket cp cc ep dsc acl root).bucket = bucket := by
  cases cp <;> cases cc <;> cases ep <;> cases dsc <;> cases acl <;>
    cases root <;>
    simp [new_gcs_config, Gcs.default, Gcs.bucket, Gcs.credential_path,
      Gcs.credential, Gcs.endpoint, Gcs.default_storage_class,
      Gcs.predefined_acl, Gcs.root]

theorem new_gcs_config_credential_path (bucket : String)
    (cp cc ep dsc acl root : Option String) :
    (new_gcs_config bucket cp cc ep dsc acl root).credential_path = cp := by
  cases cp <;> cases cc <;> cases ep <;> cases dsc <;> cases acl <;>
    cases root <;>
    simp [new_gcs_config, Gcs.default, Gcs.bucket, Gcs.credential_path,
      Gcs.credential, Gcs.endpoint, Gcs.default_storage_class,
      Gcs.predefined_acl, Gcs.root]

theorem new_gcs_config_credential (bucket : String)
    (cp cc ep dsc acl root : Option String) :
    (new_gcs_config bucket cp cc ep dsc acl root).credential =
      (match cp with
       | some _ => Option.none
       | Option.none => cc) := by
  cases cp <;> cases cc <;> cases ep <;> cases dsc <;> cases acl <;>
    cases root <;>
    simp [new_gcs_config, Gcs.default, Gcs.bucket, Gcs.credential_path,
      Gcs.credential, Gcs.endpoint, Gcs.default_storage_class,
      Gcs.predefined_acl, Gcs.root]

theorem new_gcs_config_endpoint (bucket : String)
    (cp cc ep dsc acl root : Option String) :
    (new_gcs_config bucket cp cc ep dsc acl root).endpoint = ep := by
  cases cp <;> cases cc <;> cases ep <;> cases dsc <;> cases acl <;>
    cases root <;>
    simp [new_gcs_config, Gcs.default, Gcs.bucket, Gcs.credential_path,
      Gcs.credential, Gcs.endpoint, Gcs.default_storage_class,
      Gcs.predefined_acl, Gcs.root]

theorem new_gcs_config_storage_class (bucket : String)
    (cp cc ep dsc acl root : Option String) :
    (new_gcs_config bucket cp cc ep dsc acl root).default_storage_class =
      dsc := by
  cases cp <;> cases cc <;> cases ep <;> cases dsc <;> cases acl <;>
    cases root <;>
    simp [new_gcs_config, Gcs.default, Gcs.bucket, Gcs.credential_path,
      Gcs.credential, Gcs.endpoint, Gcs.default_storage_class,
      Gcs.predefined_acl, Gcs.root]

theorem new_gcs_config_acl (bucket : String)
    (cp cc ep dsc acl root : Option String) :
    (new_gcs_config bucket cp cc ep dsc acl root).predefined_acl = acl := by
  cases cp <;> cases cc <;> cases ep <;> cases dsc <;> cases acl <;>
    cases root <;>
    simp [new_gcs_config, Gcs.default, Gcs.bucket, Gcs.credential_path,
      Gcs.credential, Gcs.endpoint, Gcs.default_storage_class,
      Gcs.predefined_acl, Gcs.root]

theorem new_gcs_config_root (bucket : String)
    (cp cc ep dsc acl root : Option String) :
    (new_gcs_config bucket cp cc ep dsc acl root).root = root := by
  cases cp <;> cases cc <;> cases ep <;> cases dsc <;> cases acl <;>
    cases root <;>
    simp [new_gcs_config, Gcs.default, Gcs.bucket, Gcs.credential_path,
      Gcs.credential, Gcs.endpoint, Gcs.default_storage_class,
      Gcs.predefined_acl, Gcs.root]

/-- C2: in `new_gcs`, if `credential_path` is supplied then only it is
applied to the backend configuration (`credential_json_content` is ignored
even when also supplied); if `credential_path` is absent and
`credential_json_content` is supplied then only the latter is applied;
both credential sources are never applied together. -/
theorem C2_gcs_credential_precedence (bucket : String)
    (cp cc ep dsc acl root : Option String) :
    (∀ v, cp = some v →
      (new_gcs_config bucket cp cc ep dsc acl root).credential_path =
          some v ∧
        (new_gcs_config bucket cp cc ep dsc acl root).credential =
          Option.none) ∧
    (cp = Option.none → ∀ w, cc = some w →
      (new_gcs_config bucket cp cc ep dsc acl root).credential = some w ∧
        (new_gcs_config bucket cp cc ep dsc acl root).credential_path =
          Option.none) ∧
    ¬((new_gcs_config bucket cp cc ep dsc acl root).credential_path ≠
        Option.none ∧
      (new_gcs_config bucket cp cc ep dsc acl root).credential ≠
        Option.none) := by
  refine ⟨?_, ?_, ?_⟩
  · intro v hv
    subst hv
    rw [new_gcs_config_credential_path, new_gcs_config_credential]
    exact ⟨rfl, rfl⟩
  · intro hcp w hw
    subst hcp
    subst hw
    rw [new_gcs_config_credential_path, new_gcs_config_credential]
    exact ⟨rfl, rfl⟩
  · rintro ⟨hp, hcred⟩
    rw [new_gcs_config_credential_path] at hp
    rw [new_gcs_config_credential] at hcred
    cases cp with
    | none => exact hp rfl
    | some v => exact hcred rfl

/-- Witness for C2 with both credential sources supplied: only
`credential_path` lands in the configuration. -/
theorem C2_gcs_witness :
    (∀ v, (some "A" : Option String) = some v →
      (new_gcs_config "b" (some "A") (some "B") Option.none Option.none
          Option.none Option.none).credential_path = some v ∧
        (new_gcs_config "b" (some "A") (some "B") Option.none Option.none
          Option.none Option.none).credential = Option.none) ∧
    ((some "A" : Option String) = Option.none →
      ∀ w, (some "B" : Option String) = some w →
      (new_gcs_config "b" (some "A") (some "B") Option.none Option.none
          Option.none Option.none).credential = some w ∧
        (new_gcs_config "b" (some "A") (some "B") Option.none Option.none
          Option.none Option.none).credential_path = Option.none) ∧
    ¬((new_gcs_config "b" (some "A") (some "B") Option.none Option.none
          Option.none Option.none).credential_path ≠ Option.none ∧
      (new_gcs_config "b" (some "A") (some "B") Option.none Option.none
          Option.none Option.none).credential ≠ Option.none) :=
  C2_gcs_credential_precedence "b" (some "A") (some "B") Option.none
    Option.none Option.none Option.none

/-- C9: `new_gcs` with an empty bucket fails with `ConfigurationError`
(whatever else is supplied), and so does construction whose applied
credential material — the credential path when supplied, otherwise the
credential JSON content — is malformed. -/
theorem C9_gcs_config_errors (malformed : String → Bool)
    (cp cc ep dsc acl root : Option String) (bucket s : String)
    (hm : malformed s = true) (hb : bucket ≠ "") :
    new_gcs malformed "" cp cc ep dsc acl root =
      .error ErrKind.ConfigurationError ∧
    new_gcs malformed bucket (some s) cc ep dsc acl root =
      .error ErrKind.ConfigurationError ∧
    new_gcs malformed bucket Option.none (some s) ep dsc acl root =
      .error ErrKind.ConfigurationError := by
  refine ⟨?_, ?_, ?_⟩
  · unfold new_gcs gcsBuild
    rw [new_gcs_config_bucket]
    simp
  · unfold new_gcs gcsBuild
    rw [new_gcs_config_bucket, new_gcs_config_credential_path]
    simp [hb, hm]
  · unfold new_gcs gcsBuild
    rw [new_gcs_config_bucket, new_gcs_config_credential_path,
      new_gcs_config_credential]
    simp [hb, hm]

/-- Witness for C9 with a concrete malformity predicate and bucket. -/
theorem C9_gcs_witness :
    new_gcs (fun s => decide (s = "bad")) "" Option.none Option.none
        Option.none Option.none Option.none Option.none =
      .error ErrKind.ConfigurationError ∧
    new_gcs (fun s => decide (s = "bad")) "b" (some "bad") Option.none
        Option.none Option.none Option.none Option.none =
      .error ErrKind.ConfigurationError ∧
    new_gcs (fun s => decide (s = "bad")) "b" Option.none (some "bad")
        Option.none Option.none Option.none Option.none =
      .error ErrKind.ConfigurationError :=
  C9_gcs_config_errors (fun s => decide (s = "bad")) Option.none Option.none
    Option.none Option.none Option.none Option.none "b" "bad" (by decide)
    (by decide)

/-- C10: when both credential sources are absent, no credential is applied
and construction still succeeds for a non-empty bucket; each optional
field — endpoint, default storage class, predefined ACL, root — is applied
to the configuration exactly when it is supplied. -/
theorem C10_gcs_no_credentials (malformed : String → Bool) (bucket : String)
    (ep dsc acl root : Option String) (hb : bucket ≠ "") :
    (new_gcs_config bucket Option.none Option.none ep dsc acl
        root).credential_path = Option.none ∧
    (new_gcs_config bucket Option.none Option.none ep dsc acl
        root).credential = Option.none ∧
    new_gcs malformed bucket Option.none Option.none ep dsc acl root =
      .ok (new_gcs_config bucket Option.none Option.none ep dsc acl root) ∧
    (new_gcs_config bucket Option.none Option.none ep dsc acl
        root).bucket = bucket ∧
    (new_gcs_config bucket Option.none Option.none ep dsc acl
        root).endpoint = ep ∧
    (new_gcs_config bucket Option.none Option.none ep dsc acl
        root).default_storage_class = dsc ∧
    (new_gcs_config bucket Option.none Option.none ep dsc acl
        root).predefined_acl = acl ∧
    (new_gcs_config bucket Option.none Option.none ep dsc acl
        root).root = root := by
  refine ⟨new_gcs_config_credential_path _ _ _ _ _ _ _,
    new_gcs_config_credential _ _ _ _ _ _ _, ?_,
    new_gcs_config_bucket _ _ _ _ _ _ _,
    new_gcs_config_endpoint _ _ _ _ _ _ _,
    new_gcs_config_storage_class _ _ _ _ _ _ _,
    new_gcs_config_acl _ _ _ _ _ _ _,
    new_gcs_config_root _ _ _ _ _ _ _⟩
  unfold new_gcs gcsBuild
  rw [new_gcs_config_bucket, new_gcs_config_credential_path,
    new_gcs_config_credential]
  simp [hb]

/-- Witness for C10 at a concrete bucket with all optional fields
supplied. -/
theorem C10_gcs_witness :
    (new_gcs_config "b" Option.none Option.none (some "e") (some "s")
        (some "a") (some "r")).credential_path = Option.none ∧
    (new_gcs_config "b" Option.none Option.none (some "e") (some "s")
        (some "a") (some "r")).credential = Option.none ∧
    new_gcs (fun s => decide (s = "bad")) "b" Option.none Option.none
        (some "e") (some "s") (some "a") (some "r") =
      .ok (new_gcs_config "b" Option.none Option.none (some "e") (some "s")
        (some "a") (some "r")) ∧
    (new_gcs_config "b" Option.none Option.none (some "e") (some "s")
        (some "a") (some "r")).bucket = "b" ∧
    (new_gcs_config "b" Option.none Option.none (some "e") (some "s")
        (some "a") (some "r")).endpoint = some "e" ∧
    (new_gcs_config "b" Option.none Option.none (some "e") (some "s")
        (some "a") (some "r")).default_storage_class = some "s" ∧
    (new_gcs_config "b" Option.none Option.none (some "e") (some "s")
        (some "a") (some "r")).predefined_acl = some "a" ∧
    (new_gcs_config "b" Option.none Option.none (some "e") (some "s")
        (some "a") (some "r")).root = some "r" :=
  C10_gcs_no_credentials (fun s => decide (s = "bad")) "b" (some "e")
    (some "s") (some "a") (some "r") (by decide)

end Opendalr
